import Mathlib

/-!
Verification of the mention-ingestion and reply-decision pipeline of the
echos-lab repository (echos_lab/twitter).  The Python functions that the
claims are about are shallowly embedded below:

* `remove_tweet_reply_tags`, from twitter_helpers.py (regex stripping of the
  leading run of reply tags);
* `HTweet`, `TweetMention`, `mention_type`, from types.py;
* `should_reply_to_mention`, from twitter_client.py / twitter_poster.py
  (the two copies are textually identical);
* `get_parent_tweet`, `collectParents` / `get_all_parent_tweets`,
  `enrich_user_mention`, from twitter_client.py (the unbounded `while True`
  loop is embedded with explicit fuel; running out of fuel returns
  `Except.ok none`, meaning the Python loop is still running at that depth);
* `post_tweet_response`, from twitter_client.py / twitter_poster.py, as a
  pure dispatch decision (network and image effects become the returned
  `DispatchAction`; the meme-generator result and the random sample are
  inputs);
* `update_checkpoint` / `get_checkpoint` and the store-operation sequence of
  `get_user_mentions`, from twitter_pipeline.py.

Tweet text is a `List Char`; Python substring membership (`in`) is `isSub`,
Python `str.count` is `countOccs`, both defined to match CPython semantics
on the inputs that occur (non-overlapping counting, left to right).
-/

namespace EchosLab

/-- Coerces a string literal to the character-list representation of text. -/
def str (s : String) : List Char := s.data

/-- Word characters of the regex class `\w` (ASCII part, as in the texts at hand). -/
def isWordChar (c : Char) : Bool := c.isAlphanum || c == '_'

/-- Whitespace characters of the regex class `\s` (ASCII part: space, tab,
newline, carriage return, vertical tab, form feed). -/
def isPySpace (c : Char) : Bool :=
  c == ' ' || c == '\t' || c == '\n' || c == '\x0d' || c == '\x0b' || c == '\x0c'

/-- One greedy pass of the regex `(@\w+\s+)*` at the start of the text: while
the text starts with an `@`-handle token followed by whitespace, drop the
token and the whitespace.  Structured with explicit fuel so that the kernel
can evaluate it; `stripLeadingTags` supplies sufficient fuel. -/
def stripLeadingTagsFuel : Nat → List Char → List Char
  | 0, l => l
  | Nat.succ n, l =>
    match l with
    | [] => l
    | c :: rest =>
      if c = '@' then
        let w := rest.takeWhile isWordChar
        if w = [] then l
        else
          let r1 := rest.dropWhile isWordChar
          let sp := r1.takeWhile isPySpace
          if sp = [] then l
          else stripLeadingTagsFuel n (r1.dropWhile isPySpace)
      else l

/-- Removal of the greedy match of `^(@\w+\s+)*`, as in
`re.sub(r"^(@\w+\s+)*", "", tweet_contents)`. -/
def stripLeadingTags (l : List Char) : List Char :=
  stripLeadingTagsFuel l.length l

/-- Python `str.strip()`: drop leading and trailing whitespace. -/
def pyStrip (l : List Char) : List Char :=
  ((l.dropWhile isPySpace).reverse.dropWhile isPySpace).reverse

/-- twitter_helpers.remove_tweet_reply_tags: strip the leading run of
`@handle` tokens (the platform reply auto-tags) and surrounding whitespace. -/
def remove_tweet_reply_tags (tweet_contents : List Char) : List Char :=
  pyStrip (stripLeadingTags tweet_contents)

/-- Python substring membership `needle in haystack`. -/
def isSub (needle : List Char) : List Char → Bool
  | [] => needle.isEmpty
  | c :: rest => List.isPrefixOf needle (c :: rest) || isSub needle rest

/-- Python `haystack.count(needle)`: non-overlapping occurrences, scanned left
to right.  Structured with explicit fuel for kernel evaluation; `countOccs`
supplies sufficient fuel (each step consumes at least one character). -/
def countOccsFuel : Nat → List Char → List Char → Nat
  | 0, _, _ => 0
  | Nat.succ fuel, needle, haystack =>
    match needle, haystack with
    | [], h => h.length + 1
    | _ :: _, [] => 0
    | a :: as, c :: rest =>
      if List.isPrefixOf (a :: as) (c :: rest)
      then 1 + countOccsFuel fuel (a :: as) (rest.drop as.length)
      else countOccsFuel fuel (a :: as) rest

/-- Python `haystack.count(needle)`. -/
def countOccs (needle haystack : List Char) : Nat :=
  countOccsFuel (haystack.length + 1) needle haystack

/-- Reference types of tweepy referenced tweets (types.ReferenceTypes). -/
inductive RefType where
  | replyRef
  | quoteRef
  | retweetRef
deriving DecidableEq

/-- One entry of `tweet.referenced_tweets`. -/
structure TweetRef where
  rtype : RefType
  rid : Nat
deriving DecidableEq

/-- The tweet data used by the pipeline (tweepy Tweet / types.HydratedTweet).
`username` holds the author username as resolved by `get_username`;
`has_media` abstracts the attachments check of HydratedTweet.has_media
(attachments present and carrying media keys). -/
structure HTweet where
  id : Nat
  conversation_id : Nat
  created_at : Nat
  author_id : Nat
  username : List Char
  text : List Char
  has_media : Bool
  refs : List TweetRef
deriving DecidableEq

/-- types.MentionType. -/
inductive MentionType where
  | TAGGED_IN_ORIGINAL
  | TAGGED_IN_DIRECT_REPLY
  | TAGGED_IN_THREAD
deriving DecidableEq

/-- types.TweetMention: the tagged tweet, the root tweet when the tag was in
a reply, and the intermediate replies (root exclusive, tagged exclusive). -/
structure TweetMention where
  tagged_tweet : HTweet
  original_tweet : Option HTweet
  replies : List HTweet
deriving DecidableEq

/-- TweetMention.mention_type: no root recorded means the tag was in an
original tweet; a root with no intermediate replies is a direct reply;
otherwise a thread. -/
def mention_type (m : TweetMention) : MentionType :=
  match m.original_tweet with
  | none => MentionType.TAGGED_IN_ORIGINAL
  | some _ =>
    if m.replies = [] then MentionType.TAGGED_IN_DIRECT_REPLY
    else MentionType.TAGGED_IN_THREAD

/-- The handle normalization at the top of should_reply_to_mention: ensure
the handle starts with `@`. -/
def normalizeHandle (h : List Char) : List Char :=
  match h with
  | '@' :: _ => h
  | _ => '@' :: h

/-- twitter_client.should_reply_to_mention (identical copy in
twitter_poster.py): decide whether a classified mention is an intentional
summon.  The `none` case of the root tweet in the reply branches is
unreachable because `mention_type` returns TAGGED_IN_ORIGINAL exactly when
the root is absent (the Python code reads `.text` there unconditionally). -/
def should_reply_to_mention (bot_handle0 : List Char) (m : TweetMention) : Bool :=
  let bot_handle := normalizeHandle bot_handle0
  if m.tagged_tweet.has_media
      || (match m.original_tweet with | some o => o.has_media | none => false) then
    false
  else if mention_type m = MentionType.TAGGED_IN_ORIGINAL then
    true
  else
    match m.original_tweet with
    | none => false
    | some original =>
      let tagged_tweet_contents := m.tagged_tweet.text
      let message := remove_tweet_reply_tags m.tagged_tweet.text
      if isSub bot_handle tagged_tweet_contents = false then false
      else if isSub bot_handle message then true
      else if 2 ≤ countOccs bot_handle tagged_tweet_contents then true
      else if mention_type m = MentionType.TAGGED_IN_DIRECT_REPLY then
        !(isSub bot_handle original.text)
      else
        let previous_repliers := m.replies.map (fun t => t.username)
        let bot_replied_earlier :=
          (bot_handle.filter (fun c => c != '@')) ∈ previous_repliers
        let bot_tagged_earlier :=
          isSub bot_handle original.text
            || m.replies.any (fun t => isSub bot_handle t.text)
        if ¬bot_replied_earlier ∧ ¬bot_tagged_earlier then true else false

/-! Checkpoint Cursor (twitter_pipeline.get_checkpoint / create_checkpoint /
update_checkpoint).  The checkpoint table is modelled as a map from the
primary key (agent_name, user_id, query_type) to the stored last_tweet_id. -/

/-- models.QueryType. -/
inductive QueryType where
  | USER_TWEETS
  | USER_MENTIONS
deriving DecidableEq

/-- Primary key of models.TwitterQueryCheckpoint. -/
structure CheckpointKey where
  agent_name : String
  user_id : Nat
  query_type : QueryType
deriving DecidableEq

/-- The checkpoint table: key to stored last_tweet_id. -/
def CheckpointStore := CheckpointKey → Option Nat

/-- twitter_pipeline.get_checkpoint: the row for the key, if present. -/
def get_checkpoint (s : CheckpointStore) (k : CheckpointKey) : Option Nat := s k

/-- twitter_pipeline.create_checkpoint: insert a row with the given id. -/
def create_checkpoint (s : CheckpointStore) (k : CheckpointKey) (tweet_id : Nat) :
    CheckpointStore :=
  fun q => if q = k then some tweet_id else s q

/-- twitter_pipeline.update_checkpoint: if a row exists, assign
`checkpoint.last_tweet_id = tweet_id` (no comparison against the stored
value); otherwise create the row. -/
def update_checkpoint (s : CheckpointStore) (k : CheckpointKey) (tweet_id : Nat) :
    CheckpointStore :=
  match get_checkpoint s k with
  | some _ => fun q => if q = k then some tweet_id else s q
  | none => create_checkpoint s k tweet_id

/-! Thread Reconstructor (twitter_client.get_parent_tweet /
get_all_parent_tweets / enrich_user_mention).  The platform lookup
`get_tweet_from_tweet_id` becomes an environment
`FetchEnv : Nat → Option HTweet`. -/

/-- The platform tweet-by-id lookup. -/
def FetchEnv := Nat → Option HTweet

/-- twitter_client.get_parent_tweet: a root tweet (id equal to conversation
id) has no parent; otherwise the first `replied_to` reference is resolved.
`next(...)` over an empty generator raises StopIteration in Python, embedded
as an error; a falsy (zero) parent id yields no parent. -/
def get_parent_tweet (env : FetchEnv) (t : HTweet) : Except String (Option HTweet) :=
  if t.id = t.conversation_id then Except.ok none
  else if t.refs = [] then Except.ok none
  else
    match t.refs.find? (fun r => r.rtype == RefType.replyRef) with
    | none => Except.error "StopIteration"
    | some r => if r.rid = 0 then Except.ok none else Except.ok (env r.rid)

/-- The `while True` loop of twitter_client.get_all_parent_tweets, with
explicit fuel: `Except.ok none` means the fuel ran out while the Python loop
was still running; `Except.ok (some acc)` means the loop exited normally
with the accumulated parents in traversal order (closest parent first). -/
def collectParents (env : FetchEnv) :
    Nat → HTweet → List HTweet → Except String (Option (List HTweet))
  | 0, _, _ => Except.ok none
  | Nat.succ fuel, t, acc =>
    match get_parent_tweet env t with
    | Except.error e => Except.error e
    | Except.ok none => Except.ok (some acc)
    | Except.ok (some p) => collectParents env fuel p (acc ++ [p])

/-- Stable insertion used by `sortByCreated`: the new element goes before
the first element whose key is not smaller, hence before all equal keys
coming from later input positions. -/
def insertByCreated (x : HTweet) : List HTweet → List HTweet
  | [] => [x]
  | y :: ys =>
    if y.created_at < x.created_at then y :: insertByCreated x ys
    else x :: y :: ys

/-- Python `sorted(tweets, key=lambda i: i.created_at)`: stable sort,
ascending by creation time (elements with equal keys keep their input
order, because each element is inserted before the equal-keyed elements
taken from the rest of the input). -/
def sortByCreated : List HTweet → List HTweet
  | [] => []
  | x :: xs => insertByCreated x (sortByCreated xs)

/-- twitter_client.get_all_parent_tweets: collect all ancestors, then sort
by creation time so the root comes first. -/
def get_all_parent_tweets (env : FetchEnv) (fuel : Nat) (t : HTweet) :
    Except String (Option (List HTweet)) :=
  match collectParents env fuel t [] with
  | Except.error e => Except.error e
  | Except.ok none => Except.ok none
  | Except.ok (some parents) => Except.ok (some (sortByCreated parents))

/-- One reply edge of a well-formed chain: the child is not a root, its
first `replied_to` reference carries the parent id (non-zero, as platform
ids are), and the platform lookup resolves that id to the parent. -/
def ReplyLink (env : FetchEnv) (child parent : HTweet) : Prop :=
  child.id ≠ child.conversation_id
  ∧ (∃ r, child.refs.find? (fun q => q.rtype == RefType.replyRef) = some r
      ∧ r.rid = parent.id)
  ∧ parent.id ≠ 0
  ∧ env parent.id = some parent

/-- twitter_client.enrich_user_mention: the first ancestor (oldest) is the
root, the remaining ancestors are the intermediate replies. -/
def enrich_user_mention (env : FetchEnv) (fuel : Nat) (t : HTweet) :
    Except String (Option TweetMention) :=
  match get_all_parent_tweets env fuel t with
  | Except.error e => Except.error e
  | Except.ok none => Except.ok none
  | Except.ok (some parents) =>
    Except.ok (some { tagged_tweet := t
                      original_tweet := parents.head?
                      replies := parents.drop 1 })

/-! Response Dispatcher (twitter_client.post_tweet_response, identical copy
in twitter_poster.py).  The network effects become the returned
`DispatchAction`; the meme-generator call
`caption_meme_from_tweet_evaluation` becomes the input `memeResult`
(the image url, when generation succeeded), and `random.random()` becomes
the input `randSample`. -/

/-- The fields of engines.prompts.TweetEvaluation read by the dispatcher
(the ratings are parsed to int on construction). -/
structure TweetEvaluation where
  response : String
  response_rating : Int
  meme_rating : Int
deriving DecidableEq

/-- The post issued by one dispatcher run. -/
inductive DispatchAction where
  | imageReply (url : String) (conversation_id reply_to_id : Nat)
  | noPost
  | quotePost (text : String) (quote_tweet_id : Nat)
  | threadReply (text : String) (conversation_id reply_to_id : Nat)
deriving DecidableEq

/-- The shared text-response tail of post_tweet_response (the code after the
meme block, reached both when the meme rating is below threshold and when
meme generation fails). -/
def textResponsePath (quote_tweet_threshold randSample : ℚ) (evaluation : TweetEvaluation)
    (text_threshold : Int) (conversation_id reply_to_tweet_id quote_tweet_id : Nat) :
    DispatchAction :=
  if evaluation.response_rating < text_threshold then DispatchAction.noPost
  else if randSample ≤ quote_tweet_threshold then
    DispatchAction.quotePost evaluation.response quote_tweet_id
  else
    DispatchAction.threadReply evaluation.response conversation_id reply_to_tweet_id

/-- twitter_client.post_tweet_response: meme path first (short-circuits on
success), then the text path. -/
def post_tweet_response (quote_tweet_threshold randSample : ℚ) (memeResult : Option String)
    (evaluation : TweetEvaluation) (meme_threshold text_threshold : Int)
    (conversation_id reply_to_tweet_id quote_tweet_id : Nat) : DispatchAction :=
  if meme_threshold ≤ evaluation.meme_rating then
    match memeResult with
    | some url => DispatchAction.imageReply url conversation_id reply_to_tweet_id
    | none =>
      textResponsePath quote_tweet_threshold randSample evaluation text_threshold
        conversation_id reply_to_tweet_id quote_tweet_id
  else
    textResponsePath quote_tweet_threshold randSample evaluation text_threshold
      conversation_id reply_to_tweet_id quote_tweet_id

/-! Store-operation sequence of twitter_pipeline.get_user_mentions.  The
function reads the checkpoint, fetches mentions (fetch results are inputs
here), updates the checkpoint when a newest id was returned, resolves and
stores every author, then stores all fetched tweets — in that order.  Store
failures are modelled by an injected failing operation index `failAt`
(counted over the database operations in execution order); the committed
effects before the failure persist, so an error carries the state at the
time of the failure. -/

/-- One database operation of the mentions ingestion cycle. -/
inductive DbOp where
  | readCheckpoint
  | updateCheckpointOp (tweet_id : Nat)
  | addUser (user_id : Nat)
  | addTweet (tweet_id : Nat)
deriving DecidableEq

/-- The database state visible to the mentions cycle: the checkpoint row for
the (agent, agent_id, USER_MENTIONS) key, stored users, stored tweets. -/
structure PipeState where
  checkpoint : Option Nat
  storedUsers : List Nat
  storedTweets : List Nat
deriving DecidableEq

/-- Effect of one operation.  `addUser` first resolves the username
(require_username_from_user_id), which raises RuntimeError when the user is
unknown to both the database and the API. -/
def applyOp (resolver : Nat → Option String) (op : DbOp) (s : PipeState) :
    Except String PipeState :=
  match op with
  | DbOp.readCheckpoint => Except.ok s
  | DbOp.updateCheckpointOp tid => Except.ok { s with checkpoint := some tid }
  | DbOp.addUser uid =>
    match resolver uid with
    | none => Except.error "RuntimeError: Twitter username not found"
    | some _ => Except.ok { s with storedUsers := s.storedUsers ++ [uid] }
  | DbOp.addTweet tid => Except.ok { s with storedTweets := s.storedTweets ++ [tid] }

/-- Runs the operations in order; the operation at index `failAt` (when
reached) throws instead of executing, and any error propagates with the
state committed so far. -/
def runOps (resolver : Nat → Option String) :
    Option Nat → List DbOp → PipeState → Except (String × PipeState) PipeState
  | _, [], s => Except.ok s
  | failAt, op :: rest, s =>
    if failAt = some 0 then Except.error ("store failure", s)
    else
      match applyOp resolver op s with
      | Except.error e => Except.error (e, s)
      | Except.ok s2 => runOps resolver (failAt.map (fun n => n - 1)) rest s2

/-- Tweets extracted from one mention for storage, in source order:
the root (when present), the intermediate replies, the tagged tweet. -/
def mentionStoredTweets (m : TweetMention) : List HTweet :=
  (match m.original_tweet with | some o => [o] | none => [])
    ++ m.replies ++ [m.tagged_tweet]

/-- Author ids extracted from one mention, in source order. -/
def mentionAuthorIds (m : TweetMention) : List Nat :=
  (match m.original_tweet with | some o => [o.author_id] | none => [])
    ++ m.replies.map (fun r => r.author_id) ++ [m.tagged_tweet.author_id]

/-- All tweets to store for a batch of mentions. -/
def mentionsStoredTweets (ms : List TweetMention) : List HTweet :=
  (ms.map mentionStoredTweets).flatten

/-- All author ids to store for a batch of mentions. -/
def mentionsAuthorIds (ms : List TweetMention) : List Nat :=
  (ms.map mentionAuthorIds).flatten

/-- The database operations of one get_user_mentions cycle, in execution
order: read the checkpoint, update it when the fetch returned a truthy
newest id (`if latest_tweet_id:` — None and 0 are both falsy), then store
the authors, then the tweets. -/
def get_user_mentions_ops (ms : List TweetMention) (latest_tweet_id : Option Nat) :
    List DbOp :=
  DbOp.readCheckpoint ::
    ((match latest_tweet_id with
      | some tid => if tid ≠ 0 then [DbOp.updateCheckpointOp tid] else []
      | none => [])
      ++ (mentionsAuthorIds ms).map DbOp.addUser
      ++ (mentionsStoredTweets ms).map (fun t => DbOp.addTweet t.id))

/-- One run of the store operations of twitter_pipeline.get_user_mentions. -/
def get_user_mentions_run (resolver : Nat → Option String) (failAt : Option Nat)
    (init : PipeState) (ms : List TweetMention) (latest_tweet_id : Option Nat) :
    Except (String × PipeState) PipeState :=
  runOps resolver failAt (get_user_mentions_ops ms latest_tweet_id) init

/-- Divergence of the parent traversal: for every amount of fuel the loop of
get_all_parent_tweets is still running (no normal exit, no exception). -/
def reconstructionDiverges (env : FetchEnv) (t : HTweet) : Prop :=
  ∀ fuel acc, collectParents env fuel t acc = Except.ok none

/-! Concrete inputs used by the claim theorems, witnesses and
counterexamples. -/

/-- Builds a tweet from its fields. -/
def mkTweet (id conv created author : Nat) (uname text : String)
    (media : Bool) (refs : List TweetRef) : HTweet :=
  { id := id, conversation_id := conv, created_at := created, author_id := author,
    username := str uname, text := str text, has_media := media, refs := refs }

/-- Checkpoint key used by the C1 statements. -/
def C1key : CheckpointKey :=
  { agent_name := "vito", user_id := 1, query_type := QueryType.USER_MENTIONS }

/-- Empty checkpoint table used by the C1 statements. -/
def C1emptyStore : CheckpointStore := fun _ => none

/-- C2 counterexample root: no media, no bot tag. -/
def C2cexRoot : HTweet := mkTweet 1 1 10 100 "alice" "catch of the day" false []

/-- C2 counterexample tagged tweet: bot tagged once, in the leading tag run
only, and the tweet carries media. -/
def C2cexTagged : HTweet :=
  mkTweet 2 1 20 101 "brad" "@bot look at this" true [⟨RefType.replyRef, 1⟩]

/-- C2 counterexample mention: a direct reply with media on the tagged tweet. -/
def C2cexMention : TweetMention :=
  { tagged_tweet := C2cexTagged, original_tweet := some C2cexRoot, replies := [] }

/-- C2 witness root: media-free, no bot tag. -/
def C2wRoot : HTweet := mkTweet 1 1 10 100 "alice" "market looks rough" false []

/-- C2 witness tagged tweet: media-free, bot tagged once in the leading run. -/
def C2wTagged : HTweet :=
  mkTweet 2 1 20 101 "brad" "@bot thoughts" false [⟨RefType.replyRef, 1⟩]

/-- C2 witness mention: a media-free direct reply. -/
def C2wMention : TweetMention :=
  { tagged_tweet := C2wTagged, original_tweet := some C2wRoot, replies := [] }

/-- C3 chain root tweet. -/
def C3root : HTweet := mkTweet 1 1 10 100 "alice" "gm world" false []

/-- C3 chain: first reply (to the root). -/
def C3a : HTweet :=
  mkTweet 2 1 20 101 "brad" "@alice interesting" false [⟨RefType.replyRef, 1⟩]

/-- C3 chain: second reply. -/
def C3b : HTweet :=
  mkTweet 3 1 30 102 "carol" "@brad @alice agreed" false [⟨RefType.replyRef, 2⟩]

/-- C3 chain: the tagged tweet at the end of the chain. -/
def C3tagged : HTweet :=
  mkTweet 4 1 40 103 "dave" "@carol @brad @alice hi @bot" false [⟨RefType.replyRef, 3⟩]

/-- C3 platform lookup for the chain. -/
def C3env : FetchEnv := fun i =>
  if i = 1 then some C3root
  else if i = 2 then some C3a
  else if i = 3 then some C3b
  else if i = 4 then some C3tagged
  else none

/-- C5 evaluation: high response rating, low meme rating. -/
def C5eval : TweetEvaluation :=
  { response := "zing", response_rating := 10, meme_rating := 1 }

/-- C6 malformed cycle, first tweet: replies to the second. -/
def C6tweetA : HTweet := mkTweet 1 99 10 100 "alice" "@bot hm" false [⟨RefType.replyRef, 2⟩]

/-- C6 malformed cycle, second tweet: replies back to the first. -/
def C6tweetB : HTweet := mkTweet 2 99 20 101 "brad" "hm" false [⟨RefType.replyRef, 1⟩]

/-- C6 platform lookup for the cycle. -/
def C6env : FetchEnv := fun i =>
  if i = 1 then some C6tweetA else if i = 2 then some C6tweetB else none

/-- C7 tagged tweet of the single fetched mention. -/
def C7tagged : HTweet := mkTweet 50 50 10 7 "eve" "@bot hello" false []

/-- C7 mention: a standalone tagged tweet. -/
def C7mention : TweetMention :=
  { tagged_tweet := C7tagged, original_tweet := none, replies := [] }

/-- C7 username resolution: every author resolves. -/
def C7resolver : Nat → Option String := fun _ => some "eve"

/-- C7 initial database state: checkpoint at tweet id 10, nothing stored. -/
def C7init : PipeState := { checkpoint := some 10, storedUsers := [], storedTweets := [] }

/-- C8 witness: a mention whose tagged tweet carries media. -/
def C8mediaMention : TweetMention :=
  { tagged_tweet := mkTweet 1 1 10 100 "alice" "@bot meme pic" true []
    original_tweet := none
    replies := [] }

/-- C8 witness: a media-free mention of type ORIGINAL. -/
def C8origMention : TweetMention :=
  { tagged_tweet := mkTweet 1 1 10 100 "alice" "@bot gm" false []
    original_tweet := none
    replies := [] }

/-- C9 root tweet. -/
def C9root : HTweet := mkTweet 1 1 10 100 "alice" "gm" false []

/-- C9 witness: bot tagged inside the message body. -/
def C9bodyMention : TweetMention :=
  { tagged_tweet :=
      mkTweet 2 1 20 101 "brad" "@alice hey @bot take a look" false [⟨RefType.replyRef, 1⟩]
    original_tweet := some C9root
    replies := [] }

/-- C9 witness: bot tagged twice, both occurrences in the leading tag run. -/
def C9twiceMention : TweetMention :=
  { tagged_tweet :=
      mkTweet 3 1 30 102 "carol" "@bot @alice @bot really" false [⟨RefType.replyRef, 1⟩]
    original_tweet := some C9root
    replies := [] }

/-- Text made of whitespace-separated handle tokens: each pair is a handle
word and the whitespace run after it; the last token has no trailing
whitespace. -/
def tagTokensText : List (List Char × List Char) → List Char → List Char
  | [], wlast => '@' :: wlast
  | (w, sp) :: rest, wlast => '@' :: (w ++ sp ++ tagTokensText rest wlast)

/-- C10 counterexample mention: tagged text is the single token, and the
tagged tweet carries media. -/
def C10cexMention : TweetMention :=
  { tagged_tweet := mkTweet 2 1 20 101 "brad" "@bot" true [⟨RefType.replyRef, 1⟩]
    original_tweet := some (mkTweet 1 1 10 100 "alice" "gm" false [])
    replies := [] }

/-- C10 witness mention: media-free, tagged text is the single token, and
the root already tagged the bot (thread history is irrelevant). -/
def C10wMention : TweetMention :=
  { tagged_tweet := mkTweet 2 1 20 101 "brad" "@bot" false [⟨RefType.replyRef, 1⟩]
    original_tweet := some (mkTweet 1 1 10 100 "alice" "@bot was here" false [])
    replies := [] }

/-- Store operations that touch only user and tweet rows (everything that
get_user_mentions issues after its checkpoint update). -/
def isDataOp : DbOp → Prop := fun op =>
  match op with
  | DbOp.addUser _ => True
  | DbOp.addTweet _ => True
  | _ => False

/-! Helper lemmas about the text functions. -/

/-- The empty needle is a substring of everything. -/
theorem isSub_nil_needle (l : List Char) : isSub [] l = true := by
  cases l <;> simp [isSub, List.isPrefixOf]

/-- Appending on the right preserves being a Boolean list prelude. -/
theorem isPrefixOf_append_right (n t q : List Char)
    (h : List.isPrefixOf n t = true) : List.isPrefixOf n (t ++ q) = true := by
  induction n generalizing t with
  | nil => simp [List.isPrefixOf]
  | cons a as ih =>
    cases t with
    | nil => simp [List.isPrefixOf] at h
    | cons b bs =>
      simp only [List.cons_append, List.isPrefixOf, Bool.and_eq_true] at h ⊢
      exact ⟨h.1, ih bs h.2⟩

/-- Appending on the right preserves substring membership. -/
theorem isSub_append_right (n t q : List Char)
    (h : isSub n t = true) : isSub n (t ++ q) = true := by
  induction t with
  | nil =>
    simp [isSub] at h
    subst h
    exact isSub_nil_needle q
  | cons c cs ih =>
    simp only [isSub, Bool.or_eq_true] at h
    rcases h with h | h
    · simp only [List.cons_append, isSub, Bool.or_eq_true]
      exact Or.inl (isPrefixOf_append_right n (c :: cs) q h)
    · simp only [List.cons_append, isSub, Bool.or_eq_true]
      exact Or.inr (ih h)

/-- Appending on the left preserves substring membership. -/
theorem isSub_append_left (n l r : List Char)
    (h : isSub n r = true) : isSub n (l ++ r) = true := by
  induction l with
  | nil => simpa using h
  | cons c cs ih =>
    simp only [List.cons_append, isSub, Bool.or_eq_true]
    exact Or.inr ih

/-- dropWhile returns a tail of its input. -/
theorem exists_pre_dropWhile (p : Char → Bool) (l : List Char) :
    ∃ pre, pre ++ l.dropWhile p = l := by
  induction l with
  | nil => exact ⟨[], rfl⟩
  | cons c cs ih =>
    by_cases h : p c
    · obtain ⟨pre, hp⟩ := ih
      exact ⟨c :: pre, by simp [List.dropWhile, h, hp]⟩
    · exact ⟨[], by simp [List.dropWhile, h]⟩

/-- The tag stripper returns a tail of its input. -/
theorem exists_pre_stripFuel (fuel : Nat) :
    ∀ l, ∃ pre, pre ++ stripLeadingTagsFuel fuel l = l := by
  induction fuel with
  | zero => exact fun l => ⟨[], rfl⟩
  | succ n ih =>
    intro l
    cases l with
    | nil => exact ⟨[], rfl⟩
    | cons c rest =>
      by_cases hc : c = '@'
      · by_cases h1 : rest.takeWhile isWordChar = []
        · exact ⟨[], by simp [stripLeadingTagsFuel, hc, h1]⟩
        · by_cases h2 : (rest.dropWhile isWordChar).takeWhile isPySpace = []
          · exact ⟨[], by simp [stripLeadingTagsFuel, hc, h1, h2]⟩
          · obtain ⟨pre2, hp2⟩ :=
              ih ((rest.dropWhile isWordChar).dropWhile isPySpace)
            obtain ⟨preA, hpA⟩ := exists_pre_dropWhile isWordChar rest
            obtain ⟨preB, hpB⟩ :=
              exists_pre_dropWhile isPySpace (rest.dropWhile isWordChar)
            refine ⟨c :: (preA ++ (preB ++ pre2)), ?_⟩
            simp only [stripLeadingTagsFuel, hc, h1, h2, if_false, if_true,
              if_neg, List.cons_append, List.append_assoc]
            rw [hp2, hpB, hpA]
      · exact ⟨[], by simp [stripLeadingTagsFuel, hc]⟩

/-- A substring of the stripped text is a substring of the text. -/
theorem isSub_strip (n l : List Char)
    (h : isSub n (stripLeadingTags l) = true) : isSub n l = true := by
  obtain ⟨pre, hp⟩ := exists_pre_stripFuel l.length l
  calc isSub n l = isSub n (pre ++ stripLeadingTags l) := by
        rw [stripLeadingTags, hp]
  _ = true := isSub_append_left n pre _ h

/-- A substring of the whitespace-trimmed text is a substring of the text. -/
theorem isSub_pyStrip (n l : List Char)
    (h : isSub n (pyStrip l) = true) : isSub n l = true := by
  obtain ⟨pre2, hp2⟩ := exists_pre_dropWhile isPySpace (l.dropWhile isPySpace).reverse
  have hmid : pyStrip l ++ pre2.reverse = l.dropWhile isPySpace := by
    have := congrArg List.reverse hp2
    simpa [pyStrip, List.reverse_append] using this
  have h1 : isSub n (l.dropWhile isPySpace) = true := by
    rw [← hmid]
    exact isSub_append_right n _ _ h
  obtain ⟨pre, hp⟩ := exists_pre_dropWhile isPySpace l
  calc isSub n l = isSub n (pre ++ l.dropWhile isPySpace) := by rw [hp]
  _ = true := isSub_append_left n pre _ h1

/-- A substring of the message body is a substring of the raw tweet text. -/
theorem isSub_message (n t : List Char)
    (h : isSub n (remove_tweet_reply_tags t) = true) : isSub n t = true :=
  isSub_strip n t (isSub_pyStrip n (stripLeadingTags t) h)

/-- A text with a positive occurrence count contains the needle. -/
theorem isSub_of_countOccsFuel_pos (fuel : Nat) :
    ∀ n h, 1 ≤ countOccsFuel fuel n h → isSub n h = true := by
  induction fuel with
  | zero => intro n h hc; simp [countOccsFuel] at hc
  | succ f ih =>
    intro n h hc
    match n, h with
    | [], h => exact isSub_nil_needle h
    | a :: as, [] => simp [countOccsFuel] at hc
    | a :: as, c :: rest =>
      by_cases hp : List.isPrefixOf (a :: as) (c :: rest) = true
      · simp [isSub, hp]
      · simp only [countOccsFuel, hp, if_false, if_neg, Bool.not_eq_true] at hc
        have := ih (a :: as) rest hc
        simp [isSub, this]

/-- A text with a positive Python count contains the needle. -/
theorem isSub_of_countOccs_pos (n h : List Char)
    (hc : 1 ≤ countOccs n h) : isSub n h = true :=
  isSub_of_countOccsFuel_pos (h.length + 1) n h hc

/-- takeWhile passes over a block of satisfying characters. -/
theorem takeWhile_append_all (p : Char → Bool) (w r : List Char)
    (hw : ∀ c ∈ w, p c = true) : (w ++ r).takeWhile p = w ++ r.takeWhile p := by
  induction w with
  | nil => simp
  | cons c cs ih =>
    have hc : p c = true := hw c (List.mem_cons_self c cs)
    simp only [List.cons_append, List.takeWhile_cons, hc, if_true, List.cons_inj_right]
    exact ih (fun d hd => hw d (List.mem_cons_of_mem c hd))

/-- dropWhile passes over a block of satisfying characters. -/
theorem dropWhile_append_all (p : Char → Bool) (w r : List Char)
    (hw : ∀ c ∈ w, p c = true) : (w ++ r).dropWhile p = r.dropWhile p := by
  induction w with
  | nil => simp
  | cons c cs ih =>
    have hc : p c = true := hw c (List.mem_cons_self c cs)
    simp only [List.cons_append, List.dropWhile_cons, hc, if_true]
    exact ih (fun d hd => hw d (List.mem_cons_of_mem c hd))

/-- A whitespace character is not a word character. -/
theorem space_not_word (c : Char) (h : isPySpace c = true) : isWordChar c = false := by
  simp only [isPySpace, Bool.or_eq_true, beq_iff_eq] at h
  rcases h with ((((h | h) | h) | h) | h) | h <;> subst h <;> decide

/-- A word character is not whitespace. -/
theorem word_not_space (c : Char) (h : isWordChar c = true) : isPySpace c = false := by
  cases hs : isPySpace c with
  | false => rfl
  | true => rw [space_not_word c hs] at h; cases h

/-- A token-run text always starts with the at sign. -/
theorem tagTokensText_head (pairs : List (List Char × List Char)) (wlast : List Char) :
    ∃ z, tagTokensText pairs wlast = '@' :: z := by
  cases pairs with
  | nil => exact ⟨wlast, rfl⟩
  | cons q rest => exact ⟨q.1 ++ q.2 ++ tagTokensText rest wlast, rfl⟩

/-- The tag stripper reduces a token-run text to its final token, fuel form. -/
theorem stripFuel_tagTokensText (fuel : Nat) :
    ∀ (pairs : List (List Char × List Char)) (wlast : List Char),
    (∀ q ∈ pairs, q.1 ≠ [] ∧ (∀ c ∈ q.1, isWordChar c = true)
      ∧ q.2 ≠ [] ∧ (∀ c ∈ q.2, isPySpace c = true)) →
    (∀ c ∈ wlast, isWordChar c = true) →
    (tagTokensText pairs wlast).length ≤ fuel →
    stripLeadingTagsFuel fuel (tagTokensText pairs wlast) = '@' :: wlast := by
  induction fuel with
  | zero =>
    intro pairs wlast hpairs hlast hlen
    cases pairs with
    | nil => rfl
    | cons q rest => simp [tagTokensText] at hlen
  | succ f ih =>
    intro pairs wlast hpairs hlast hlen
    cases pairs with
    | nil =>
      have hw : wlast.takeWhile isWordChar = wlast := by
        have := takeWhile_append_all isWordChar wlast [] hlast
        simpa using this
      have hdrop : wlast.dropWhile isWordChar = [] := by
        have := dropWhile_append_all isWordChar wlast [] hlast
        simpa using this
      simp only [tagTokensText, stripLeadingTagsFuel, if_pos rfl, hw, hdrop,
        List.takeWhile_nil]
      simp [ite_self]
    | cons q rest =>
      obtain ⟨hw1, hw2, hs1, hs2⟩ := hpairs q (List.mem_cons_self q rest)
      obtain ⟨w, sp⟩ := q
      simp only at hw1 hw2 hs1 hs2
      obtain ⟨z, hz⟩ := tagTokensText_head rest wlast
      have hspace_head : ∀ r, (sp ++ r).takeWhile isWordChar = [] := by
        intro r
        cases hsp : sp with
        | nil => exact absurd hsp hs1
        | cons s0 sps =>
          have : isPySpace s0 = true := hs2 s0 (by rw [hsp]; exact List.mem_cons_self s0 sps)
          simp [List.takeWhile_cons, space_not_word s0 this]
      have htake : (w ++ (sp ++ tagTokensText rest wlast)).takeWhile isWordChar = w := by
        rw [takeWhile_append_all isWordChar w _ hw2, hspace_head _]
        simp
      have hdropw : (w ++ (sp ++ tagTokensText rest wlast)).dropWhile isWordChar
          = sp ++ tagTokensText rest wlast := by
        rw [dropWhile_append_all isWordChar w _ hw2]
        cases hsp : sp with
        | nil => exact absurd hsp hs1
        | cons s0 sps =>
          have : isPySpace s0 = true := hs2 s0 (by rw [hsp]; exact List.mem_cons_self s0 sps)
          simp [List.dropWhile_cons, space_not_word s0 this]
      have hatns : isPySpace '@' = false := by decide
      have htake2 : (sp ++ tagTokensText rest wlast).takeWhile isPySpace = sp := by
        rw [takeWhile_append_all isPySpace sp _ hs2, hz]
        simp [List.takeWhile_cons, hatns]
      have hdrop2 : (sp ++ tagTokensText rest wlast).dropWhile isPySpace
          = tagTokensText rest wlast := by
        rw [dropWhile_append_all isPySpace sp _ hs2, hz]
        simp [List.dropWhile_cons, hatns]
      have hrest : (tagTokensText rest wlast).length ≤ f := by
        simp only [tagTokensText, List.length_cons, List.length_append] at hlen
        omega
      simp only [tagTokensText, stripLeadingTagsFuel, if_pos rfl, if_true,
        List.append_assoc, htake, hdropw, htake2, hdrop2, if_neg hw1, if_neg hs1]
      exact ih rest wlast (fun p hp => hpairs p (List.mem_cons_of_mem (w, sp) hp))
        hlast hrest

/-- remove_tweet_reply_tags keeps the final token of an all-token text. -/
theorem remove_tagTokensText (pairs : List (List Char × List Char)) (wlast : List Char)
    (hpairs : ∀ q ∈ pairs, q.1 ≠ [] ∧ (∀ c ∈ q.1, isWordChar c = true)
      ∧ q.2 ≠ [] ∧ (∀ c ∈ q.2, isPySpace c = true))
    (hne : wlast ≠ []) (hlast : ∀ c ∈ wlast, isWordChar c = true) :
    remove_tweet_reply_tags (tagTokensText pairs wlast) = '@' :: wlast := by
  unfold remove_tweet_reply_tags stripLeadingTags
  rw [stripFuel_tagTokensText _ pairs wlast hpairs hlast (le_refl _)]
  unfold pyStrip
  have hat : isPySpace '@' = false := by decide
  have h1 : ('@' :: wlast).dropWhile isPySpace = '@' :: wlast := by
    simp [List.dropWhile_cons, hat]
  rw [h1]
  have h2 : ('@' :: wlast).reverse = wlast.reverse ++ ['@'] := by simp
  rw [h2]
  cases hw : wlast.reverse with
  | nil => exact absurd (List.reverse_eq_nil_iff.mp hw) hne
  | cons r0 rs =>
    have hr0 : isWordChar r0 = true := by
      refine hlast r0 ?_
      have : r0 ∈ wlast.reverse := by rw [hw]; exact List.mem_cons_self r0 rs
      simpa [List.mem_reverse] using this
    have hns : isPySpace r0 = false := word_not_space r0 hr0
    have h3 : List.dropWhile isPySpace ((r0 :: rs) ++ ['@']) = (r0 :: rs) ++ ['@'] := by
      simp [List.dropWhile_cons, hns]
    rw [h3]
    have h4 : ((r0 :: rs) ++ ['@']).reverse = '@' :: (r0 :: rs).reverse := by simp
    rw [h4, ← hw]
    simp

/-! Branch-reduction lemmas for should_reply_to_mention on media-free
reply-type mentions. -/

/-- A reply-type mention is never classified as ORIGINAL. -/
theorem mention_type_not_original (m : TweetMention) (o : HTweet)
    (ho : m.original_tweet = some o) :
    mention_type m ≠ MentionType.TAGGED_IN_ORIGINAL := by
  simp only [mention_type, ho]
  split <;> simp

/-- In-body tag: the heuristic accepts. -/
theorem should_reply_msg (bh0 : List Char) (m : TweetMention) (o : HTweet)
    (ho : m.original_tweet = some o)
    (hm1 : m.tagged_tweet.has_media = false) (hm2 : o.has_media = false)
    (hmsg : isSub (normalizeHandle bh0)
      (remove_tweet_reply_tags m.tagged_tweet.text) = true) :
    should_reply_to_mention bh0 m = true := by
  have hin : isSub (normalizeHandle bh0) m.tagged_tweet.text = true :=
    isSub_message _ _ hmsg
  simp only [should_reply_to_mention, ho, hm1, hm2, Bool.or_self, Bool.false_eq_true,
    if_false, if_neg (mention_type_not_original m o ho)]
  simp [hin, hmsg]

/-- Double tag: the heuristic accepts. -/
theorem should_reply_twice (bh0 : List Char) (m : TweetMention) (o : HTweet)
    (ho : m.original_tweet = some o)
    (hm1 : m.tagged_tweet.has_media = false) (hm2 : o.has_media = false)
    (hc2 : 2 ≤ countOccs (normalizeHandle bh0) m.tagged_tweet.text) :
    should_reply_to_mention bh0 m = true := by
  have hin : isSub (normalizeHandle bh0) m.tagged_tweet.text = true :=
    isSub_of_countOccs_pos _ _ (le_trans (by norm_num) hc2)
  simp only [should_reply_to_mention, ho, hm1, hm2, Bool.or_self, Bool.false_eq_true,
    if_false, if_neg (mention_type_not_original m o ho)]
  by_cases hmsg : isSub (normalizeHandle bh0)
      (remove_tweet_reply_tags m.tagged_tweet.text) = true
  · simp [hin, hmsg]
  · simp [hin, hmsg, hc2]

/-- Single tag in the leading run, direct reply: the heuristic answers
by the absence of the handle from the root text. -/
theorem should_reply_direct (bh0 : List Char) (m : TweetMention) (o : HTweet)
    (ho : m.original_tweet = some o)
    (hm1 : m.tagged_tweet.has_media = false) (hm2 : o.has_media = false)
    (hcount : countOccs (normalizeHandle bh0) m.tagged_tweet.text = 1)
    (hmsg : isSub (normalizeHandle bh0)
      (remove_tweet_reply_tags m.tagged_tweet.text) = false)
    (hrep : m.replies = []) :
    should_reply_to_mention bh0 m = !(isSub (normalizeHandle bh0) o.text) := by
  have hin : isSub (normalizeHandle bh0) m.tagged_tweet.text = true :=
    isSub_of_countOccs_pos _ _ (le_of_eq hcount.symm)
  have hlt : ¬ 2 ≤ countOccs (normalizeHandle bh0) m.tagged_tweet.text := by
    rw [hcount]; norm_num
  have hdir : mention_type m = MentionType.TAGGED_IN_DIRECT_REPLY := by
    simp [mention_type, ho, hrep]
  simp only [should_reply_to_mention, ho, hm1, hm2, Bool.or_self, Bool.false_eq_true,
    if_false, if_neg (mention_type_not_original m o ho)]
  simp [hin, hmsg, hlt, hdir]

/-- Single tag in the leading run, thread: the heuristic accepts exactly
when the bot neither appears in the earlier texts nor replied earlier. -/
theorem should_reply_thread (bh0 : List Char) (m : TweetMention) (o : HTweet)
    (ho : m.original_tweet = some o)
    (hm1 : m.tagged_tweet.has_media = false) (hm2 : o.has_media = false)
    (hcount : countOccs (normalizeHandle bh0) m.tagged_tweet.text = 1)
    (hmsg : isSub (normalizeHandle bh0)
      (remove_tweet_reply_tags m.tagged_tweet.text) = false)
    (hrep : m.replies ≠ []) :
    (should_reply_to_mention bh0 m = true ↔
      (isSub (normalizeHandle bh0) o.text = false
        ∧ (∀ r ∈ m.replies, isSub (normalizeHandle bh0) r.text = false)
        ∧ ((normalizeHandle bh0).filter (fun c => c != '@'))
            ∉ m.replies.map (fun t => t.username))) := by
  have hin : isSub (normalizeHandle bh0) m.tagged_tweet.text = true :=
    isSub_of_countOccs_pos _ _ (le_of_eq hcount.symm)
  have hlt : ¬ 2 ≤ countOccs (normalizeHandle bh0) m.tagged_tweet.text := by
    rw [hcount]; norm_num
  have hdir : mention_type m ≠ MentionType.TAGGED_IN_DIRECT_REPLY := by
    simp [mention_type, ho, hrep]
  simp only [should_reply_to_mention, ho, hm1, hm2, Bool.or_self, Bool.false_eq_true,
    if_false, if_neg (mention_type_not_original m o ho)]
  simp only [hin, hmsg, Bool.false_eq_true, if_false, if_neg hlt, if_neg hdir,
    Bool.true_eq_false, if_true]
  constructor
  · intro h
    by_cases hmem : ((normalizeHandle bh0).filter (fun c => c != '@'))
        ∈ m.replies.map (fun t => t.username)
    · simp [hmem] at h
    · by_cases htag : (isSub (normalizeHandle bh0) o.text
          || m.replies.any (fun t => isSub (normalizeHandle bh0) t.text)) = true
      · simp [hmem, htag] at h
      · simp only [Bool.or_eq_true, List.any_eq_true, not_or, not_exists] at htag
        refine ⟨by simpa using htag.1, ?_, hmem⟩
        intro r hr
        have := htag.2
        simp only [not_and] at this
        by_cases hx : isSub (normalizeHandle bh0) r.text = true
        · exact absurd hx (by
            intro hxx
            exact absurd hxx (by
              have h2 := this r
              intro hy
              exact h2 hr hy))
        · simpa using hx
  · rintro ⟨h1, h2, h3⟩
    have htag : (isSub (normalizeHandle bh0) o.text
        || m.replies.any (fun t => isSub (normalizeHandle bh0) t.text)) = false := by
      simp only [Bool.or_eq_false_iff, List.any_eq_false]
      exact ⟨h1, fun r hr => by simp [h2 r hr]⟩
    simp [h3, htag]

/-- A failure injected anywhere into a run of user/tweet store operations
surfaces as an error whose committed state has the unchanged checkpoint. -/
theorem runOps_dataOps (resolver : Nat → Option String)
    (htotal : ∀ uid, (resolver uid).isSome = true) :
    ∀ (l : List DbOp) (j : Nat) (s : PipeState),
    (∀ op ∈ l, isDataOp op) → j < l.length →
    ∃ s2, runOps resolver (some j) l s = Except.error ("store failure", s2)
      ∧ s2.checkpoint = s.checkpoint := by
  intro l
  induction l with
  | nil => intro j s h hj; simp at hj
  | cons op rest ih =>
    intro j s hops hj
    cases j with
    | zero =>
      refine ⟨s, ?_, rfl⟩
      simp [runOps]
    | succ k =>
      have hop := hops op (List.mem_cons_self op rest)
      have hne : (some (k + 1) : Option Nat) ≠ some 0 := by simp
      have happ : ∃ s2, applyOp resolver op s = Except.ok s2
          ∧ s2.checkpoint = s.checkpoint := by
        cases op with
        | readCheckpoint => exact absurd hop (by simp [isDataOp])
        | updateCheckpointOp t => exact absurd hop (by simp [isDataOp])
        | addUser uid =>
          have hres := htotal uid
          cases hu : resolver uid with
          | none => rw [hu] at hres; simp at hres
          | some v =>
            exact ⟨{ s with storedUsers := s.storedUsers ++ [uid] },
              by simp [applyOp, hu], rfl⟩
        | addTweet tid =>
          exact ⟨{ s with storedTweets := s.storedTweets ++ [tid] },
            by simp [applyOp], rfl⟩
      obtain ⟨s2, hap, hchk⟩ := happ
      obtain ⟨s3, hrun, hchk3⟩ :=
        ih k s2 (fun p hp => hops p (List.mem_cons_of_mem op hp))
          (Nat.lt_of_succ_lt_succ (by simpa using hj))
      refine ⟨s3, ?_, by rw [hchk3, hchk]⟩
      simp only [runOps, if_neg hne, hap]
      simpa using hrun

/-- A reply edge resolves through get_parent_tweet to its parent. -/
theorem get_parent_tweet_of_link (env : FetchEnv) (c p : HTweet)
    (h : ReplyLink env c p) : get_parent_tweet env c = Except.ok (some p) := by
  obtain ⟨hc, ⟨r, hf, hr⟩, hpz, henv⟩ := h
  have hne : c.refs ≠ [] := by
    intro hnil
    rw [hnil] at hf
    simp [List.find?] at hf
  simp [get_parent_tweet, hc, hne, hf, hr, hpz, henv]

/-- One loop iteration of the parent traversal, resolving step. -/
theorem collectParents_step (env : FetchEnv) (n : Nat) (t p : HTweet)
    (acc : List HTweet) (h : get_parent_tweet env t = Except.ok (some p)) :
    collectParents env (n + 1) t acc = collectParents env n p (acc ++ [p]) := by
  simp [collectParents, h]

/-- One loop iteration of the parent traversal, stopping step. -/
theorem collectParents_stop (env : FetchEnv) (n : Nat) (t : HTweet)
    (acc : List HTweet) (h : get_parent_tweet env t = Except.ok none) :
    collectParents env (n + 1) t acc = Except.ok (some acc) := by
  simp [collectParents, h]

/-! Claim theorems. -/

/-- C1 counterexample: update_checkpoint never compares against the stored
id — advancing the key to 5 and then to 3 leaves the stored value at 3, not
at the 5 the claim requires. -/
theorem C1_counterexample :
    (3 < 5)
    ∧ get_checkpoint
        (update_checkpoint (update_checkpoint C1emptyStore C1key 5) C1key 3) C1key
      = some 3
    ∧ (some 3 : Option Nat) ≠ some 5 :=
  ⟨by decide, by decide, by decide⟩

/-- C1 amended: update_checkpoint creates the row when absent, and otherwise
overwrites the stored id unconditionally — after two successive advances the
stored value is always the second id, regardless of order. -/
theorem C1_checkpoint_overwrite :
    (∀ (s : CheckpointStore) (k : CheckpointKey) (n1 n2 : Nat),
      get_checkpoint (update_checkpoint (update_checkpoint s k n1) k n2) k = some n2)
    ∧ (∀ (s : CheckpointStore) (k : CheckpointKey) (n : Nat),
      get_checkpoint s k = none →
      get_checkpoint (update_checkpoint s k n) k = some n) := by
  constructor
  · intro s k n1 n2
    simp only [update_checkpoint, get_checkpoint]
    cases h : s k <;> simp [h, create_checkpoint]
  · intro s k n h
    simp only [update_checkpoint, get_checkpoint] at h ⊢
    rw [h]
    simp [create_checkpoint]

/-- C1 witness: creation on an absent key stores the given id. -/
theorem C1_checkpoint_overwrite_witness :
    get_checkpoint C1emptyStore C1key = none
    ∧ get_checkpoint (update_checkpoint C1emptyStore C1key 7) C1key = some 7 :=
  ⟨rfl, C1_checkpoint_overwrite.2 C1emptyStore C1key 7 rfl⟩

/-- C2 counterexample: a DIRECT_REPLY mention whose tagged tweet carries
media refutes the claimed equivalence — the handle occurs exactly once and
only in the leading tag run, the root text lacks the handle, yet the
heuristic returns false. -/
theorem C2_counterexample :
    countOccs (normalizeHandle (str "@bot")) C2cexMention.tagged_tweet.text = 1
    ∧ isSub (normalizeHandle (str "@bot"))
        (remove_tweet_reply_tags C2cexMention.tagged_tweet.text) = false
    ∧ C2cexMention.original_tweet = some C2cexRoot
    ∧ mention_type C2cexMention = MentionType.TAGGED_IN_DIRECT_REPLY
    ∧ isSub (normalizeHandle (str "@bot")) C2cexRoot.text = false
    ∧ should_reply_to_mention (str "@bot") C2cexMention = false :=
  ⟨by decide, by decide, rfl, by decide, by decide, by decide⟩

/-- C2 amended (media-free condition added): for a media-free mention whose
handle occurrence count is one and kept out of the stripped message body,
a DIRECT_REPLY is accepted exactly when the handle is absent from the root
text, and a THREAD exactly when the handle is absent from the root and all
intermediate reply texts and the bot username is not among the repliers. -/
theorem C2_prefix_only_rules (bh0 : List Char) (m : TweetMention) (o : HTweet)
    (ho : m.original_tweet = some o)
    (hm1 : m.tagged_tweet.has_media = false) (hm2 : o.has_media = false)
    (hcount : countOccs (normalizeHandle bh0) m.tagged_tweet.text = 1)
    (hmsg : isSub (normalizeHandle bh0)
      (remove_tweet_reply_tags m.tagged_tweet.text) = false) :
    (m.replies = [] →
      (should_reply_to_mention bh0 m = true
        ↔ isSub (normalizeHandle bh0) o.text = false))
    ∧ (m.replies ≠ [] →
      (should_reply_to_mention bh0 m = true ↔
        (isSub (normalizeHandle bh0) o.text = false
          ∧ (∀ r ∈ m.replies, isSub (normalizeHandle bh0) r.text = false)
          ∧ ((normalizeHandle bh0).filter (fun c => c != '@'))
              ∉ m.replies.map (fun t => t.username)))) := by
  constructor
  · intro hrep
    rw [should_reply_direct bh0 m o ho hm1 hm2 hcount hmsg hrep]
    simp
  · intro hrep
    exact should_reply_thread bh0 m o ho hm1 hm2 hcount hmsg hrep

/-- C2 witness: a media-free direct reply tagging the bot once in the
leading run, with a clean root, is accepted. -/
theorem C2_prefix_only_rules_witness :
    countOccs (normalizeHandle (str "@bot")) C2wMention.tagged_tweet.text = 1
    ∧ isSub (normalizeHandle (str "@bot"))
        (remove_tweet_reply_tags C2wMention.tagged_tweet.text) = false
    ∧ (should_reply_to_mention (str "@bot") C2wMention = true
        ↔ isSub (normalizeHandle (str "@bot")) C2wRoot.text = false) :=
  ⟨by decide, by decide,
    (C2_prefix_only_rules (str "@bot") C2wMention C2wRoot rfl rfl rfl
      (by decide) (by decide)).1 rfl⟩

/-- C3: a tweet whose id equals its conversation id reconstructs to the
empty ancestor list; and for every reply chain root → a → b → tagged
(reply edges resolving through the platform lookup, creation times
ascending, enough fuel for the four loop iterations), reconstruction of the
tagged tweet returns [root, a, b] in ascending creation order and the
classifier yields a THREAD mention with replies [a, b]. -/
theorem C3_thread_reconstruction :
    (∀ (env : FetchEnv) (fuel : Nat) (t : HTweet), 0 < fuel →
      t.id = t.conversation_id →
      get_all_parent_tweets env fuel t = Except.ok (some []))
    ∧ (∀ (env : FetchEnv) (root a b tagged : HTweet) (fuel : Nat), 4 ≤ fuel →
      root.id = root.conversation_id →
      ReplyLink env a root → ReplyLink env b a → ReplyLink env tagged b →
      root.created_at < a.created_at → a.created_at < b.created_at →
      (get_all_parent_tweets env fuel tagged = Except.ok (some [root, a, b])
        ∧ enrich_user_mention env fuel tagged = Except.ok (some
            { tagged_tweet := tagged, original_tweet := some root,
              replies := [a, b] })
        ∧ mention_type { tagged_tweet := tagged, original_tweet := some root,
                         replies := [a, b] } = MentionType.TAGGED_IN_THREAD)) := by
  constructor
  · intro env fuel t hf h
    cases fuel with
    | zero => exact absurd hf (by norm_num)
    | succ n =>
      simp [get_all_parent_tweets, collectParents, get_parent_tweet, h, sortByCreated]
  · intro env root a b tagged fuel hfuel hroot la lb lt ht1 ht2
    obtain ⟨f, rfl⟩ : ∃ f, fuel = f + 4 := ⟨fuel - 4, by omega⟩
    have hpt : get_parent_tweet env tagged = Except.ok (some b) :=
      get_parent_tweet_of_link env tagged b lt
    have hpb : get_parent_tweet env b = Except.ok (some a) :=
      get_parent_tweet_of_link env b a lb
    have hpa : get_parent_tweet env a = Except.ok (some root) :=
      get_parent_tweet_of_link env a root la
    have hpr : get_parent_tweet env root = Except.ok none := by
      simp [get_parent_tweet, hroot]
    have e4 : f + 4 = (f + 3) + 1 := rfl
    have e3 : f + 3 = (f + 2) + 1 := rfl
    have e2 : f + 2 = (f + 1) + 1 := rfl
    have hcollect : collectParents env (f + 4) tagged [] =
        Except.ok (some [b, a, root]) := by
      rw [e4, collectParents_step env (f + 3) tagged b [] hpt]
      simp only [List.nil_append]
      rw [e3, collectParents_step env (f + 2) b a [b] hpb]
      simp only [List.cons_append, List.nil_append]
      rw [e2, collectParents_step env (f + 1) a root [b, a] hpa]
      simp only [List.cons_append, List.nil_append]
      rw [collectParents_stop env f root [b, a, root] hpr]
    have hsort : sortByCreated [b, a, root] = [root, a, b] := by
      simp [sortByCreated, insertByCreated, ht1, ht2, ht1.trans ht2]
    have hall : get_all_parent_tweets env (f + 4) tagged
        = Except.ok (some [root, a, b]) := by
      simp [get_all_parent_tweets, hcollect, hsort]
    refine ⟨hall, ?_, by simp [mention_type]⟩
    simp [enrich_user_mention, hall]

/-- C3 witness: the concrete chain instantiates both halves — the root
reconstructs to the empty list, and the tagged tweet reconstructs to the
full ancestor list with the THREAD classification. -/
theorem C3_thread_reconstruction_witness :
    get_all_parent_tweets C3env 10 C3root = Except.ok (some [])
    ∧ get_all_parent_tweets C3env 10 C3tagged = Except.ok (some [C3root, C3a, C3b])
    ∧ enrich_user_mention C3env 10 C3tagged = Except.ok (some
        { tagged_tweet := C3tagged, original_tweet := some C3root,
          replies := [C3a, C3b] })
    ∧ mention_type { tagged_tweet := C3tagged, original_tweet := some C3root,
                     replies := [C3a, C3b] } = MentionType.TAGGED_IN_THREAD := by
  have hchain := C3_thread_reconstruction.2 C3env C3root C3a C3b C3tagged 10
    (by decide) rfl
    ⟨by decide, ⟨⟨RefType.replyRef, 1⟩, rfl, rfl⟩, by decide, rfl⟩
    ⟨by decide, ⟨⟨RefType.replyRef, 2⟩, rfl, rfl⟩, by decide, rfl⟩
    ⟨by decide, ⟨⟨RefType.replyRef, 3⟩, rfl, rfl⟩, by decide, rfl⟩
    (by decide) (by decide)
  exact ⟨C3_thread_reconstruction.1 C3env 10 C3root (by decide) rfl,
    hchain.1, hchain.2.1, hchain.2.2⟩

/-- C4: when the meme rating reaches the meme threshold, a generated image
is posted as an image reply regardless of every text-path input, and a
failed generation falls back to the text path. -/
theorem C4_meme_short_circuit (qt rand : ℚ) (memeResult : Option String)
    (e : TweetEvaluation) (mth tth : Int) (conv rep quo : Nat)
    (h : mth ≤ e.meme_rating) :
    (∀ url, memeResult = some url →
      post_tweet_response qt rand memeResult e mth tth conv rep quo
        = DispatchAction.imageReply url conv rep)
    ∧ (memeResult = none →
      post_tweet_response qt rand memeResult e mth tth conv rep quo
        = textResponsePath qt rand e tth conv rep quo) := by
  constructor
  · intro url hu
    subst hu
    simp [post_tweet_response, h]
  · intro hn
    subst hn
    simp [post_tweet_response, h]

/-- C4 witness: meme rating 10 over threshold 5 with a generated image posts
the image reply even though the response rating is far below the text
threshold. -/
theorem C4_meme_short_circuit_witness :
    ((5 : Int) ≤ (10 : Int))
    ∧ post_tweet_response (mkRat 1 2) (mkRat 1 4) (some "imgurl")
        { response := "txt", response_rating := 0, meme_rating := 10 } 5 5 1 2 3
      = DispatchAction.imageReply "imgurl" 1 2 :=
  ⟨by decide,
    (C4_meme_short_circuit (mkRat 1 2) (mkRat 1 4) (some "imgurl")
      { response := "txt", response_rating := 0, meme_rating := 10 } 5 5 1 2 3
      (by decide)).1 "imgurl" rfl⟩

/-- C5 counterexample: at a random sample exactly equal to the quote
probability the sample does not fall strictly below it, yet the dispatcher
posts a quote tweet — not the threaded reply the claim requires. -/
theorem C5_counterexample :
    ¬(mkRat 1 2 < mkRat 1 2)
    ∧ post_tweet_response (mkRat 1 2) (mkRat 1 2) none C5eval 5 5 11 22 33
      = DispatchAction.quotePost "zing" 33 :=
  ⟨by decide, by decide⟩

/-- C5 amended (quote branch taken at or below the probability): off the
meme path, a response rating below the text threshold posts nothing;
otherwise a sample at or below the quote probability posts exactly a quote
tweet of the quote target and a larger sample posts exactly a threaded
reply. -/
theorem C5_text_dispatch (qt rand : ℚ) (memeResult : Option String)
    (e : TweetEvaluation) (mth tth : Int) (conv rep quo : Nat)
    (hmeme : e.meme_rating < mth ∨ memeResult = none) :
    (e.response_rating < tth →
      post_tweet_response qt rand memeResult e mth tth conv rep quo
        = DispatchAction.noPost)
    ∧ (tth ≤ e.response_rating →
      (rand ≤ qt →
        post_tweet_response qt rand memeResult e mth tth conv rep quo
          = DispatchAction.quotePost e.response quo)
      ∧ (qt < rand →
        post_tweet_response qt rand memeResult e mth tth conv rep quo
          = DispatchAction.threadReply e.response conv rep)) := by
  have hpost : post_tweet_response qt rand memeResult e mth tth conv rep quo
      = textResponsePath qt rand e tth conv rep quo := by
    rcases hmeme with h | h
    · simp [post_tweet_response, not_le.mpr h]
    · subst h
      by_cases h2 : mth ≤ e.meme_rating <;> simp [post_tweet_response, h2]
  rw [hpost]
  unfold textResponsePath
  constructor
  · intro h
    simp [h]
  · intro h
    have hns : ¬ e.response_rating < tth := not_lt.mpr h
    constructor
    · intro hq
      simp [hns, hq]
    · intro hq
      simp [hns, not_le.mpr hq]

/-- C5 witness: meme rating below threshold, response rating over the text
threshold, sample at the quote probability: exactly a quote tweet. -/
theorem C5_text_dispatch_witness :
    ((1 : Int) < 5 ∨ (none : Option String) = none)
    ∧ ((5 : Int) ≤ (10 : Int))
    ∧ (mkRat 1 2 ≤ mkRat 1 2)
    ∧ post_tweet_response (mkRat 1 2) (mkRat 1 2) none C5eval 5 5 11 22 33
      = DispatchAction.quotePost "zing" 33 :=
  ⟨Or.inr rfl, by decide, by decide,
    ((C5_text_dispatch (mkRat 1 2) (mkRat 1 2) none C5eval 5 5 11 22 33
      (Or.inl (by decide))).2 (by decide)).1 (by decide)⟩

/-- On the two-tweet reply cycle the loop alternates between the two tweets
forever: from either starting point, every amount of fuel is exhausted. -/
theorem cycle_never_exits : ∀ fuel acc,
    collectParents C6env fuel C6tweetA acc = Except.ok none
    ∧ collectParents C6env fuel C6tweetB acc = Except.ok none := by
  intro fuel
  induction fuel with
  | zero => intro acc; exact ⟨rfl, rfl⟩
  | succ n ih =>
    intro acc
    have hA : get_parent_tweet C6env C6tweetA = Except.ok (some C6tweetB) := rfl
    have hB : get_parent_tweet C6env C6tweetB = Except.ok (some C6tweetA) := rfl
    constructor
    · simp only [collectParents, hA]
      exact (ih (acc ++ [C6tweetB])).2
    · simp only [collectParents, hB]
      exact (ih (acc ++ [C6tweetA])).1

/-- C6: the parent traversal of get_all_parent_tweets has neither a depth
cap nor a visited set — on a malformed two-tweet reply cycle the loop never
terminates (for every fuel the embedded loop is still running). -/
theorem C6_cycle_divergence : reconstructionDiverges C6env C6tweetA :=
  fun fuel acc => (cycle_never_exits fuel acc).1

/-- C7 counterexample: checkpoint at 10, one fetched mention with newest id
50, store failure injected at the tweet-upsert operation — the error
propagates, but the committed state already holds checkpoint 50 while the
fetched tweet was never stored, against the claimed upsert-before-advance
ordering. -/
theorem C7_counterexample :
    get_user_mentions_run C7resolver (some 3) C7init [C7mention] (some 50)
      = Except.error ("store failure",
          { checkpoint := some 50, storedUsers := [7], storedTweets := [] })
    ∧ C7init.checkpoint = some 10
    ∧ (some 50 : Option Nat) ≠ some 10 :=
  ⟨rfl, rfl, by decide⟩

/-- C7 amended: a store failure at any operation of the cycle propagates to
the caller; a failure at or before the checkpoint update (the first two
operations) leaves the checkpoint at its prior value, but the checkpoint
update precedes every author/tweet upsert, so a failure while storing
leaves the checkpoint advanced to the newest fetched id. -/
theorem C7_checkpoint_ordering (resolver : Nat → Option String)
    (htotal : ∀ uid, (resolver uid).isSome = true)
    (init : PipeState) (ms : List TweetMention) (tid : Nat) (htid : tid ≠ 0)
    (j : Nat) (hj : j < (get_user_mentions_ops ms (some tid)).length) :
    ∃ s2, get_user_mentions_run resolver (some j) init ms (some tid)
        = Except.error ("store failure", s2)
      ∧ s2.checkpoint = (if j ≤ 1 then init.checkpoint else some tid) := by
  have hops : get_user_mentions_ops ms (some tid)
      = DbOp.readCheckpoint :: DbOp.updateCheckpointOp tid ::
        ((mentionsAuthorIds ms).map DbOp.addUser
          ++ (mentionsStoredTweets ms).map (fun t => DbOp.addTweet t.id)) := by
    simp [get_user_mentions_ops, if_pos htid]
  have hdata : ∀ op ∈ (mentionsAuthorIds ms).map DbOp.addUser
      ++ (mentionsStoredTweets ms).map (fun t => DbOp.addTweet t.id), isDataOp op := by
    intro op hop
    rcases List.mem_append.mp hop with h | h
    · obtain ⟨a, _, rfl⟩ := List.mem_map.mp h
      simp [isDataOp]
    · obtain ⟨a, _, rfl⟩ := List.mem_map.mp h
      simp [isDataOp]
  rw [get_user_mentions_run, hops]
  rw [hops] at hj
  simp only [List.length_cons] at hj
  match j with
  | 0 =>
    refine ⟨init, ?_, by simp⟩
    simp [runOps]
  | 1 =>
    refine ⟨init, ?_, by simp⟩
    simp [runOps, applyOp]
  | Nat.succ (Nat.succ k) =>
    obtain ⟨s2, hrun, hchk⟩ :=
      runOps_dataOps resolver htotal
        ((mentionsAuthorIds ms).map DbOp.addUser
          ++ (mentionsStoredTweets ms).map (fun t => DbOp.addTweet t.id))
        k { init with checkpoint := some tid } hdata (by omega)
    refine ⟨s2, ?_, ?_⟩
    · simp only [runOps, applyOp, Option.map_some]
      norm_num
      simpa using hrun
    · rw [hchk]
      have hk2 : ¬ (k + 2 ≤ 1) := by omega
      simp [hk2]

/-- C7 witness: the amended ordering at the concrete failing run. -/
theorem C7_checkpoint_ordering_witness :
    (∀ uid, (C7resolver uid).isSome = true)
    ∧ ((50 : Nat) ≠ 0)
    ∧ (3 < (get_user_mentions_ops [C7mention] (some 50)).length)
    ∧ ∃ s2, get_user_mentions_run C7resolver (some 3) C7init [C7mention] (some 50)
        = Except.error ("store failure", s2)
      ∧ s2.checkpoint = (if 3 ≤ 1 then C7init.checkpoint else some 50) :=
  ⟨fun _ => rfl, by decide, by decide,
    C7_checkpoint_ordering C7resolver (fun _ => rfl) C7init [C7mention] 50
      (by decide) 3 (by decide)⟩

/-- C8: media on the tagged tweet or on the root forces refusal for every
handle, and a media-free mention of type ORIGINAL is always accepted. -/
theorem C8_media_and_original (m : TweetMention) :
    ((m.tagged_tweet.has_media = true
        ∨ (∃ o, m.original_tweet = some o ∧ o.has_media = true)) →
      ∀ bh0, should_reply_to_mention bh0 m = false)
    ∧ (m.tagged_tweet.has_media = false → m.original_tweet = none →
      ∀ bh0, should_reply_to_mention bh0 m = true) := by
  constructor
  · intro h bh0
    rcases h with h | ⟨o, ho, hom⟩
    · simp [should_reply_to_mention, h]
    · simp [should_reply_to_mention, ho, hom]
  · intro h1 h2 bh0
    simp [should_reply_to_mention, h1, h2, mention_type]

/-- C8 witness: a media mention is refused and a media-free ORIGINAL mention
is accepted. -/
theorem C8_media_and_original_witness :
    C8mediaMention.tagged_tweet.has_media = true
    ∧ should_reply_to_mention (str "@bot") C8mediaMention = false
    ∧ C8origMention.tagged_tweet.has_media = false
    ∧ C8origMention.original_tweet = none
    ∧ should_reply_to_mention (str "@bot") C8origMention = true :=
  ⟨rfl, (C8_media_and_original C8mediaMention).1 (Or.inl rfl) (str "@bot"),
   rfl, rfl, (C8_media_and_original C8origMention).2 rfl rfl (str "@bot")⟩

/-- C9: for a media-free reply-type mention, a handle occurrence in the
stripped message body forces acceptance, and so does a double occurrence
anywhere in the raw text. -/
theorem C9_explicit_tag (bh0 : List Char) (m : TweetMention) (o : HTweet)
    (ho : m.original_tweet = some o)
    (hm1 : m.tagged_tweet.has_media = false) (hm2 : o.has_media = false) :
    (isSub (normalizeHandle bh0)
        (remove_tweet_reply_tags m.tagged_tweet.text) = true →
      should_reply_to_mention bh0 m = true)
    ∧ (2 ≤ countOccs (normalizeHandle bh0) m.tagged_tweet.text →
      should_reply_to_mention bh0 m = true) :=
  ⟨fun h => should_reply_msg bh0 m o ho hm1 hm2 h,
   fun h => should_reply_twice bh0 m o ho hm1 hm2 h⟩

/-- C9 witness: an in-body tag and a double tag are each accepted. -/
theorem C9_explicit_tag_witness :
    isSub (normalizeHandle (str "@bot"))
      (remove_tweet_reply_tags C9bodyMention.tagged_tweet.text) = true
    ∧ should_reply_to_mention (str "@bot") C9bodyMention = true
    ∧ 2 ≤ countOccs (normalizeHandle (str "@bot")) C9twiceMention.tagged_tweet.text
    ∧ should_reply_to_mention (str "@bot") C9twiceMention = true :=
  ⟨by decide,
   (C9_explicit_tag (str "@bot") C9bodyMention C9root rfl rfl rfl).1 (by decide),
   by decide,
   (C9_explicit_tag (str "@bot") C9twiceMention C9root rfl rfl rfl).2 (by decide)⟩

/-- C10 counterexample: a reply-type mention whose tagged text is the single
token but whose tagged tweet carries media is refused, against the claimed
unconditional acceptance. -/
theorem C10_counterexample :
    C10cexMention.tagged_tweet.text = str "@bot"
    ∧ (∃ o, C10cexMention.original_tweet = some o)
    ∧ should_reply_to_mention (str "@bot") C10cexMention = false :=
  ⟨rfl, ⟨_, rfl⟩, by decide⟩

/-- C10 amended (media-free condition added to the acceptance part): a text
made solely of whitespace-separated handle tokens strips to its final token
(never to the empty string), and a media-free reply-type mention whose whole
text is the single token is accepted regardless of thread history. -/
theorem C10_single_token :
    (∀ (pairs : List (List Char × List Char)) (wlast : List Char),
      (∀ q ∈ pairs, q.1 ≠ [] ∧ (∀ c ∈ q.1, isWordChar c = true)
        ∧ q.2 ≠ [] ∧ (∀ c ∈ q.2, isPySpace c = true)) →
      wlast ≠ [] → (∀ c ∈ wlast, isWordChar c = true) →
      remove_tweet_reply_tags (tagTokensText pairs wlast) = '@' :: wlast)
    ∧ (∀ (m : TweetMention) (o : HTweet), m.original_tweet = some o →
      m.tagged_tweet.has_media = false → o.has_media = false →
      m.tagged_tweet.text = str "@bot" →
      should_reply_to_mention (str "@bot") m = true) := by
  constructor
  · exact fun pairs wlast hp hne hl => remove_tagTokensText pairs wlast hp hne hl
  · intro m o ho hm1 hm2 htext
    refine should_reply_msg (str "@bot") m o ho hm1 hm2 ?_
    rw [htext]
    decide

/-- C10 witness: the two-token text keeps its final token, and the concrete
single-token mention is accepted although the root already tagged the bot. -/
theorem C10_single_token_witness :
    remove_tweet_reply_tags (tagTokensText [(str "alice", str " ")] (str "bot"))
      = '@' :: str "bot"
    ∧ C10wMention.tagged_tweet.text = str "@bot"
    ∧ should_reply_to_mention (str "@bot") C10wMention = true :=
  ⟨C10_single_token.1 [(str "alice", str " ")] (str "bot")
      (by decide) (by decide) (by decide),
   rfl,
   C10_single_token.2 C10wMention (mkTweet 1 1 10 100 "alice" "@bot was here" false [])
     rfl rfl rfl rfl⟩

end EchosLab
